import Mathlib

/-!
# Verification of the NMR-Spectrum-Analysis numerical core

A shallow embedding, over exact rationals, of the numerical-analysis chain of
the NMR-Spectrum-Analysis repository: the smoothing filters (`Filter.cpp`),
the natural cubic spline (`CubicSpline.cpp`), the four quadrature routines
(`Integration.cpp`) and the peak detection / quantification logic
(`PeakDetector.cpp`).  C++ `double` arithmetic is modelled by `ℚ`; the claims
settled here are structural (control flow, which state is mutated, which
branch is taken, how values are combined), and are insensitive to the
difference between exact and floating-point arithmetic except where noted.

Each C++ function is translated into an executable Lean definition that keeps
the source's name; loops become fuelled or structural recursions whose fuel
matches the source's loop bound.
-/

namespace NMR

/-- C `round` rounds half away from zero; the result is then cast to `int`
exactly (`static_cast<int>(round(q))`). -/
def roundQ (q : ℚ) : ℤ :=
  if q < 0 then -(⌊(1/2 : ℚ) - q⌋) else ⌊q + 1/2⌋

/-- The `Peak` struct of `PeakDetector.h`: begin/end crossings, midpoint
location, data maximum, integrated area and relative hydrogen count. -/
structure Peak where
  begin_ : ℚ
  end_ : ℚ
  location : ℚ
  maximum : ℚ
  area : ℚ
  hydrogens : ℤ
  deriving DecidableEq, Repr

/-! ## Filter.cpp -/

namespace Filter

/-- Index reflection used by both filter passes: mirror at the start
(`idx = -idx`), mirror at the end (`idx = 2n - idx - 2`), then clamp any
still-invalid index to `[0, n-1]`.  Indices are C `int`s, modelled by `ℤ`. -/
def reflectIdx (n : ℕ) (idx0 : ℤ) : ℤ :=
  let idx1 := if idx0 < 0 then -idx0 else idx0
  let idx2 := if idx1 ≥ (n : ℤ) then 2 * (n : ℤ) - idx1 - 2 else idx1
  let idx3 := if idx2 < 0 then 0 else idx2
  if idx3 ≥ (n : ℤ) then (n : ℤ) - 1 else idx3

/-- Inclusive integer range `[a, b]`, the index set of the window loop
`for (int j = -halfWidth; j <= halfWidth; j++)`. -/
def windowRange (a b : ℤ) : List ℤ :=
  (List.range (b - a + 1).toNat).map (fun k => a + (k : ℤ))

/-- `Filter::boxcarPass`: one pass of the moving-average filter with
reflecting boundaries.  `filterSize ≤ 0` or empty data returns the input
unchanged. -/
def boxcarPass (data : List ℚ) (filterSize : ℤ) : List ℚ :=
  if filterSize ≤ 0 ∨ data.isEmpty then data
  else
    let n := data.length
    let halfWidth : ℤ := (filterSize - 1) / 2
    (List.range n).map (fun (i : ℕ) =>
      let sum := (windowRange (-halfWidth) halfWidth).foldl
        (fun acc j => acc + data.getD (reflectIdx n ((i : ℤ) + j)).toNat 0) 0
      sum / (filterSize : ℚ))

/-- `Filter::applyBoxcar`: `numPasses` sequential boxcar passes. -/
def applyBoxcar (data : List ℚ) (filterSize : ℤ) : ℕ → List ℚ
  | 0 => data
  | numPasses + 1 => boxcarPass (applyBoxcar data filterSize numPasses) filterSize

/-- `Filter::sgPass`: one Savitzky-Golay pass.  Any `filterSize` other than
5, 11 or 17 — including nonpositive sizes — is replaced by 5 (with a warning
on `cerr`); an empty input is returned unchanged. -/
def sgPass (data : List ℚ) (filterSize0 : ℤ) : List ℚ :=
  let filterSize : ℤ :=
    if filterSize0 ≠ 5 ∧ filterSize0 ≠ 11 ∧ filterSize0 ≠ 17 then 5 else filterSize0
  if data.isEmpty then data
  else
    let n := data.length
    let coeffs : List ℚ :=
      if filterSize = 5 then [-3, 12, 17, 12, -3]
      else if filterSize = 11 then [-36, 9, 44, 69, 84, 89, 84, 69, 44, 9, -36]
      else [-21, -6, 7, 18, 27, 34, 39, 42, 43, 42, 39, 34, 27, 18, 7, -6, -21]
    let norm : ℚ := if filterSize = 5 then 35 else if filterSize = 11 then 429 else 323
    let halfWidth : ℤ := (filterSize - 1) / 2
    (List.range n).map (fun (i : ℕ) =>
      let sum := (windowRange (-halfWidth) halfWidth).foldl
        (fun acc j =>
          acc + coeffs.getD (j + halfWidth).toNat 0 *
            data.getD (reflectIdx n ((i : ℤ) + j)).toNat 0) 0
      sum / norm)

/-- `Filter::applySavitzkyGolay`: `numPasses` sequential SG passes. -/
def applySavitzkyGolay (data : List ℚ) (filterSize : ℤ) : ℕ → List ℚ
  | 0 => data
  | numPasses + 1 => sgPass (applySavitzkyGolay data filterSize numPasses) filterSize

end Filter

/-! ## CubicSpline.cpp -/

/-- The private state of a `CubicSpline` object: knot arrays `x`, `y`, the
three per-interval coefficient arrays `b`, `c`, `d`, and the `computed`
flag. -/
structure SplineState where
  x : List ℚ
  y : List ℚ
  b : List ℚ
  c : List ℚ
  d : List ℚ
  computed : Bool
  deriving DecidableEq, Repr

namespace CubicSpline

/-- The `CubicSpline()` constructor: `computed(false)`, all vectors empty. -/
def new : SplineState := ⟨[], [], [], [], [], false⟩

/-- `std::vector<double>::resize(n)`: truncate to `n` elements, or pad with
value-initialised `0.0`. -/
def resize (l : List ℚ) (n : ℕ) : List ℚ :=
  l.take n ++ List.replicate (n - l.length) 0

/-- Models armadillo's dense `solve(A, rhs)` used for the tridiagonal system:
Gaussian elimination (no pivoting) over exact rationals.  The solver's output
never decides a claim; only the control flow around it does. -/
def gaussSolve : List (List ℚ) → List ℚ → List ℚ
  | [], _ => []
  | _ :: _, [] => []
  | ([]) :: _, _ :: _ => []
  | (pivot :: prow) :: rest, r0 :: rrhs =>
    let reduced := (rest.zip rrhs).map (fun rowRhs =>
      match rowRhs with
      | ([], ri) => ([], ri)
      | (a :: arow, ri) =>
        let factor := a / pivot
        ((arow.zip prow).map (fun p => p.1 - factor * p.2), ri - factor * r0))
    let xs := gaussSolve (reduced.map Prod.fst) (reduced.map Prod.snd)
    let x0 := (r0 - ((prow.zip xs).map (fun p => p.1 * p.2)).sum) / pivot
    x0 :: xs
  termination_by A _ => A.length
  decreasing_by simp_all [List.length_map, List.length_zip]

/-- `CubicSpline::compute`.  Returns the C++ `bool` result paired with the
object state after the call.  Mirrors the source's order of operations:
the size checks happen before any member is touched, but `x`, `y` are
assigned and `b`, `c`, `d` resized *before* the strictly-increasing check
on the interval widths `h`. -/
def compute (st : SplineState) (xData yData : List ℚ) : Bool × SplineState :=
  if xData.length ≠ yData.length ∨ xData.length < 2 then (false, st)
  else
    let n := xData.length
    let st1 : SplineState :=
      { st with x := xData, y := yData,
                b := resize st.b n, c := resize st.c n, d := resize st.d n }
    if n = 2 then
      let slope := (yData.getD 1 0 - yData.getD 0 0) / (xData.getD 1 0 - xData.getD 0 0)
      (true, { st1 with b := [slope, slope], c := [0, 0], d := [0, 0], computed := true })
    else
      let h := (List.range (n - 1)).map (fun i => xData.getD (i + 1) 0 - xData.getD i 0)
      if h.any (fun hi => hi ≤ 0) then (false, st1)
      else
        let m := n - 2
        -- Tridiagonal matrix A: A(i,i) = 2(h_i + h_{i+1}), A(i,i-1) = h_i,
        -- A(i,i+1) = h_{i+1}; rhs(i) = 6[(y_{i+2}-y_{i+1})/h_{i+1} - (y_{i+1}-y_i)/h_i].
        let A := (List.range m).map (fun i => (List.range m).map (fun j =>
          if j = i then 2 * (h.getD i 0 + h.getD (i + 1) 0)
          else if j + 1 = i then h.getD i 0
          else if j = i + 1 then h.getD (i + 1) 0
          else 0))
        let rhs := (List.range m).map (fun i =>
          6 * ((yData.getD (i + 2) 0 - yData.getD (i + 1) 0) / h.getD (i + 1) 0
               - (yData.getD (i + 1) 0 - yData.getD i 0) / h.getD i 0))
        let Minterior := gaussSolve A rhs
        let M := 0 :: Minterior ++ [0]
        let bcoef := (List.range (n - 1)).map (fun i =>
          (yData.getD (i + 1) 0 - yData.getD i 0) / h.getD i 0
            - h.getD i 0 * (2 * M.getD i 0 + M.getD (i + 1) 0) / 6)
        let ccoef := (List.range (n - 1)).map (fun i => M.getD i 0 / 2)
        let dcoef := (List.range (n - 1)).map (fun i =>
          (M.getD (i + 1) 0 - M.getD i 0) / (6 * h.getD i 0))
        (true, { st1 with
          b := bcoef ++ [bcoef.getD (n - 2) 0],
          c := ccoef ++ [ccoef.getD (n - 2) 0],
          d := dcoef ++ [dcoef.getD (n - 2) 0],
          computed := true })

/-- The binary-search loop of `evaluate`/`evaluateDerivative`: narrow
`[left, right]` until `right - left ≤ 1`, then return `left`.  The fuel is
the knot count, which bounds the iteration count of the source's `while`. -/
def binSearch (xs : List ℚ) (xVal : ℚ) : ℕ → ℕ → ℕ → ℕ
  | _, left, 0 => left
  | right, left, fuel + 1 =>
    if right - left > 1 then
      let mid := (left + right) / 2
      if xVal < xs.getD mid 0 then binSearch xs xVal mid left fuel
      else binSearch xs xVal right mid fuel
    else left

/-- The interval index chosen by `evaluate`: clamp to the first/last interval
outside the knot range, else binary search. -/
def findIntervalIdx (xs : List ℚ) (xVal : ℚ) : ℕ :=
  let n := xs.length
  if xVal ≤ xs.getD 0 0 then 0
  else if xVal ≥ xs.getD (n - 1) 0 then n - 2
  else binSearch xs xVal (n - 1) 0 n

/-- `CubicSpline::evaluate`: `0.0` when uncomputed or empty, else the cubic
of the containing (or clamped) interval at `dx = xVal - x_i`. -/
def evaluate (s : SplineState) (xVal : ℚ) : ℚ :=
  if ¬s.computed ∨ s.x.isEmpty then 0
  else
    let i := findIntervalIdx s.x xVal
    let dx := xVal - s.x.getD i 0
    s.y.getD i 0 + s.b.getD i 0 * dx + s.c.getD i 0 * dx * dx
      + s.d.getD i 0 * dx * dx * dx

/-- The bisection refinement inside `findCrossings`: 50 iterations, stopping
when `|f(mid)| < 1e-8` or the bracket is narrower than `1e-10`; if the last
iteration's test fails the midpoint of the updated bracket is recorded. -/
def bisect (s : SplineState) (yVal : ℚ) : ℕ → ℚ → ℚ → ℚ → ℚ → ℚ
  | 0, xLeft, xRight, _, _ => (xLeft + xRight) / 2
  | fuel + 1, xLeft, xRight, fLeft, fRight =>
    let xMid := (xLeft + xRight) / 2
    let fMid := evaluate s xMid - yVal
    if |fMid| < 1 / 100000000 ∨ |xRight - xLeft| < 1 / 10000000000 then xMid
    else if fLeft * fMid < 0 then bisect s yVal fuel xLeft xMid fLeft fMid
    else bisect s yVal fuel xMid xRight fMid fRight

/-- The 1000-sample scan of `findCrossings`: at each sign change of
`evaluate - yVal` between consecutive samples, append the bisection-refined
root. -/
def crossLoop (s : SplineState) (yVal xMin dx : ℚ) :
    ℕ → ℕ → ℚ → ℚ → List ℚ → List ℚ
  | 0, _, _, _, acc => acc
  | k + 1, i, prevVal, prevX, acc =>
    let xSample := xMin + (i : ℚ) * dx
    let currVal := evaluate s xSample - yVal
    let acc' := if prevVal * currVal < 0
      then acc ++ [bisect s yVal 50 prevX xSample prevVal currVal]
      else acc
    crossLoop s yVal xMin dx k (i + 1) currVal xSample acc'

/-- `CubicSpline::findCrossings`: sample at 1000 equally spaced points over
`[xMin, xMax]` and refine each bracketed sign change by bisection. -/
def findCrossings (s : SplineState) (yVal xMin xMax : ℚ) : List ℚ :=
  if ¬s.computed ∨ s.x.isEmpty then []
  else
    let dx := (xMax - xMin) / 1000
    crossLoop s yVal xMin dx 1000 1 (evaluate s xMin - yVal) xMin []

/-- The `j`-th sample abscissa `xMin + j·dx` of the `findCrossings` scan
(names the subterm `xSample` of `crossLoop`). -/
def crossSampleX (xMin dx : ℚ) (j : ℕ) : ℚ := xMin + (j : ℚ) * dx

/-- The scanned function value at the `j`-th sample (names the subterm
`currVal` of `crossLoop`). -/
def crossSampleVal (s : SplineState) (yVal xMin dx : ℚ) (j : ℕ) : ℚ :=
  evaluate s (crossSampleX xMin dx j) - yVal

end CubicSpline

/-! ## Integration.cpp -/

namespace Integration

open CubicSpline (evaluate)

/-- `Integration::trapezoid`: trapezoidal rule with `n` subintervals. -/
def trapezoid (s : SplineState) (a b : ℚ) (n : ℕ) : ℚ :=
  let h := (b - a) / (n : ℚ)
  let sum := (List.range (n - 1)).foldl
    (fun acc (i : ℕ) => acc + evaluate s (a + ((i : ℚ) + 1) * h))
    ((1/2) * (evaluate s a + evaluate s b))
  h * sum

/-- One composite-Simpson estimate of `newtonCotes`'s loop body, with `n`
(even) subintervals: endpoints weight 1, odd interior indices weight 4, even
interior indices weight 2, all times `h/3`. -/
def simpsonEstimate (s : SplineState) (a b : ℚ) (n : ℕ) : ℚ :=
  let h := (b - a) / (n : ℚ)
  let sum0 := evaluate s a + evaluate s b
  let sum1 := (List.range' 1 (n / 2) 2).foldl
    (fun acc (i : ℕ) => acc + 4 * evaluate s (a + (i : ℚ) * h)) sum0
  let sum2 := (List.range' 2 (n / 2 - 1) 2).foldl
    (fun acc (i : ℕ) => acc + 2 * evaluate s (a + (i : ℚ) * h)) sum1
  (h / 3) * sum2

/-- The doubling loop of `newtonCotes`: up to 20 iterations; from the second
iteration on, stop as soon as successive estimates differ by less than the
tolerance; otherwise double `n`, remembering the last estimate. -/
def ncLoop (s : SplineState) (a b tolerance : ℚ) :
    ℕ → ℕ → ℚ → Bool → ℚ
  | 0, _, prev, _ => prev
  | fuel + 1, n, prev, first =>
    let integral := simpsonEstimate s a b n
    if ¬first ∧ |integral - prev| < tolerance then integral
    else ncLoop s a b tolerance fuel (2 * n) integral false

/-- `Integration::newtonCotes`: composite Simpson with interval doubling;
`0.0` and an error message when the spline is uncomputed. -/
def newtonCotes (s : SplineState) (a b tolerance : ℚ) : ℚ :=
  if ¬s.computed then 0
  else ncLoop s a b tolerance 20 2 0 true

/-- One Richardson-extrapolation sweep of `romberg`'s inner loop: given the
previous row `R[i-1][0..i-1]` and the running entry `R[i][j-1]`, produce
`R[i][j] = (4^j R[i][j-1] - R[i-1][j-1]) / (4^j - 1)` for `j = 1..i`. -/
def richardsonRow : List ℚ → ℚ → ℕ → List ℚ
  | [], _, _ => []
  | p :: ps, r, j =>
    let r' := ((4 : ℚ) ^ j * r - p) / ((4 : ℚ) ^ j - 1)
    r' :: richardsonRow ps r' (j + 1)

/-- The last diagonal entry `R[i][i]` of a Romberg row. -/
def diagEntry (row : List ℚ) : ℚ := row.getLast?.getD 0

/-- The level loop of `romberg`: row `i` starts from the trapezoidal estimate
with `2^i` subintervals; from level 1 on, return the diagonal entry as soon
as consecutive diagonal entries differ by less than the tolerance; after 15
levels return `R[14][14]`. -/
def rombergLoop (s : SplineState) (a b tolerance : ℚ) :
    ℕ → ℕ → List ℚ → ℚ
  | 0, _, prevRow => diagEntry prevRow
  | fuel + 1, i, prevRow =>
    let t := trapezoid s a b (2 ^ i)
    let row := t :: richardsonRow prevRow t 1
    if i > 0 ∧ |diagEntry row - diagEntry prevRow| < tolerance then diagEntry row
    else rombergLoop s a b tolerance fuel (i + 1) row

/-- `Integration::romberg`: Richardson-extrapolated trapezoidal table, up to
15 levels; `0.0` and an error message when the spline is uncomputed. -/
def romberg (s : SplineState) (a b tolerance : ℚ) : ℚ :=
  if ¬s.computed then 0
  else rombergLoop s a b tolerance 15 0 []

/-- `Integration::adaptiveHelper`, with an explicit fuel standing for the
C++ call stack: the source has no depth counter, so a call that would recurse
deeper than the modelled stack yields `none` (the stack-exhaustion outcome);
`some` is a value the source actually returns. -/
def adaptiveHelper (s : SplineState) :
    ℚ → ℚ → ℚ → ℚ → ℚ → ℚ → ℕ → Option ℚ
  | _, _, _, _, _, _, 0 => none
  | a, b, tolerance, fa, fb, fmid, fuel + 1 =>
    let mid := (a + b) / 2
    let h := b - a
    let Swhole := (h / 6) * (fa + 4 * fmid + fb)
    let leftMid := (a + mid) / 2
    let fLeftMid := evaluate s leftMid
    let Sleft := (h / 12) * (fa + 4 * fLeftMid + fmid)
    let rightMid := (mid + b) / 2
    let fRightMid := evaluate s rightMid
    let Sright := (h / 12) * (fmid + 4 * fRightMid + fb)
    let Ssplit := Sleft + Sright
    let error := |Ssplit - Swhole| / 15
    if error < tolerance then some (Ssplit + (Ssplit - Swhole) / 15)
    else
      match adaptiveHelper s a mid (tolerance / 2) fa fmid fLeftMid fuel with
      | none => none
      | some leftIntegral =>
        match adaptiveHelper s mid b (tolerance / 2) fmid fb fRightMid fuel with
        | none => none
        | some rightIntegral => some (leftIntegral + rightIntegral)

/-- `Integration::adaptive`: guard, then seed the recursion with the endpoint
and midpoint values.  The fuel plays the role of the machine stack. -/
def adaptive (s : SplineState) (a b tolerance : ℚ) (fuel : ℕ) : Option ℚ :=
  if ¬s.computed then some 0
  else
    let fa := evaluate s a
    let fb := evaluate s b
    let fmid := evaluate s ((a + b) / 2)
    adaptiveHelper s a b tolerance fa fb fmid fuel

/-- The 32 positive abscissas of the 64-point Gauss-Legendre rule, copied
from the source's `nodes` table (exact decimal literals). -/
def glNodes : List ℚ :=
  [0.0243502926634244325089558, 0.0729931217877990394495429,
   0.1214628192961205544703765, 0.1696444204239928180373136,
   0.2174236437400070841496487, 0.2646871622087674163739642,
   0.3113228719902109561575127, 0.3572201583376681159504426,
   0.4022701579639916036957668, 0.4463660172534640879849477,
   0.4894031457070529574785263, 0.5312794640198945456580139,
   0.5718956462026340342838781, 0.6111553551723932502488530,
   0.6489654712546573398577612, 0.6852363130542332425635584,
   0.7198818501716108268489402, 0.7528199072605318966118638,
   0.7839723589433414076102205, 0.8132653151227975597419233,
   0.8406292962525803627516915, 0.8659993981540928197607834,
   0.8893154459951141058534040, 0.9105221370785028057563807,
   0.9295691721319395758214902, 0.9464113748584028160624815,
   0.9610087996520537189186141, 0.9733268277899109637418535,
   0.9833362538846259569312993, 0.9910133714767443207393824,
   0.9963401167719552793469245, 0.9993050417357721394569056]

/-- The matching 32 weights from the source's `weights` table. -/
def glWeights : List ℚ :=
  [0.0486909570091397203833654, 0.0485754674415034269347991,
   0.0483447622348029571697695, 0.0479993885964583077281262,
   0.0475401657148303086622822, 0.0469681828162100173253263,
   0.0462847965813144172959532, 0.0454916279274181444797710,
   0.0445905581637565630601347, 0.0435837245293234533768279,
   0.0424735151236535890073398, 0.0412625632426235286101563,
   0.0399537411327203413866569, 0.0385501531786156291289625,
   0.0370551285402400460404151, 0.0354722132568823838106931,
   0.0338051618371416093915655, 0.0320579283548515535854675,
   0.0302346570724024788679741, 0.0283396726142594832275113,
   0.0263774697150546586716918, 0.0243527025687108733381776,
   0.0222701738083832541592983, 0.0201348231535302093723403,
   0.0179517157756973430850453, 0.0157260304760247193219660,
   0.0134630478967186425980608, 0.0111681394601311288185905,
   0.0088467598263639477230309, 0.0065044579689783628561174,
   0.0041470332605624676352875, 0.0017832807216964329472961]

/-- `Integration::gaussLegendre`: fixed 64-point rule using the symmetric
node pairs mapped onto `[a, b]`; `0.0` and an error message when the spline
is uncomputed. -/
def gaussLegendre (s : SplineState) (a b : ℚ) : ℚ :=
  if ¬s.computed then 0
  else
    let midpoint := (a + b) / 2
    let halfwidth := (b - a) / 2
    let sum := (glNodes.zip glWeights).foldl
      (fun acc nw =>
        acc + nw.2 * (evaluate s (midpoint + halfwidth * nw.1)
                      + evaluate s (midpoint - halfwidth * nw.1))) 0
    halfwidth * sum

end Integration

/-! ## PeakDetector.cpp -/

namespace PeakDetector

open CubicSpline (evaluate findCrossings)

/-- `*min_element` over a sample vector (the guard ensures nonemptiness; the
empty case is arbitrary and unreachable). -/
def listMin : List ℚ → ℚ
  | [] => 0
  | a :: t => t.foldl min a

/-- `*max_element` over a sample vector. -/
def listMax : List ℚ → ℚ
  | [] => 0
  | a :: t => t.foldl max a

/-- The boundary fix-up of `detectPeaks`: prepend `xMin` when the spline
value at `xMin` exceeds the baseline *and the crossing list is nonempty*;
then append `xMax` under the symmetric condition, again only when the
(possibly already extended) list is nonempty. -/
def adjustCrossings (s : SplineState) (baseline xMin xMax : ℚ)
    (crossings : List ℚ) : List ℚ :=
  let cr1 := if evaluate s xMin > baseline ∧ ¬crossings.isEmpty
    then xMin :: crossings else crossings
  if evaluate s xMax > baseline ∧ ¬cr1.isEmpty then cr1 ++ [xMax] else cr1

/-- Insertion into a sorted list, for `std::sort` on crossing values. -/
def insertSorted (a : ℚ) : List ℚ → List ℚ
  | [] => [a]
  | b :: t => if a ≤ b then a :: b :: t else b :: insertSorted a t

/-- `std::sort(crossings.begin(), crossings.end())`, modelled as insertion
sort (value-equal to any comparison sort on `ℚ`). -/
def sortCrossings : List ℚ → List ℚ
  | [] => []
  | a :: t => insertSorted a (sortCrossings t)

/-- The data-point scan of `detectPeaks`: walk the `(x, y)` samples, and for
each sample with `x ∈ [xBegin, xEnd]` whose `y` exceeds the running maximum,
record it and set `foundDataPoint`.  Returns
`(maxY, maxX, foundDataPoint)`. -/
def scanMax (xBegin xEnd : ℚ) :
    List (ℚ × ℚ) → ℚ → ℚ → Bool → ℚ × ℚ × Bool
  | [], maxY, maxX, found => (maxY, maxX, found)
  | (xj, yj) :: rest, maxY, maxX, found =>
    if xj ≥ xBegin ∧ xj ≤ xEnd then
      if yj > maxY then scanMax xBegin xEnd rest yj xj true
      else scanMax xBegin xEnd rest maxY maxX found
    else scanMax xBegin xEnd rest maxY maxX found

/-- The body of `detectPeaks`'s crossing-pair loop for one consecutive pair
`(xBegin, xEnd)`: discard valleys (midpoint value ≤ baseline), scan the data
points starting from `maxY = baseline`, discard the pair when no data point
exceeded the running maximum, build the `Peak`, and finally discard peaks
whose location is within 0.02 of the origin. -/
def processPair (s : SplineState) (baseline : ℚ) (samples : List (ℚ × ℚ))
    (pair : ℚ × ℚ) : Option Peak :=
  let xBegin := pair.1
  let xEnd := pair.2
  let xMid := (xBegin + xEnd) / 2
  let yMid := evaluate s xMid
  if yMid ≤ baseline then none
  else
    let scanned := scanMax xBegin xEnd samples baseline xMid false
    if ¬scanned.2.2 then none
    else
      let peak : Peak :=
        { begin_ := xBegin, end_ := xEnd, location := (xBegin + xEnd) / 2,
          maximum := scanned.1, area := 0, hydrogens := 0 }
      if |peak.location| < 1/50 then none
      else some peak

/-- `PeakDetector::detectPeaks`: guards, crossing search over
`[min x, max x]`, boundary fix-up, the two-crossing minimum, sorting, and
the pair loop. -/
def detectPeaks (s : SplineState) (xData yData : List ℚ) (baseline : ℚ) :
    List Peak :=
  if ¬s.computed ∨ xData.isEmpty ∨ yData.isEmpty then []
  else if xData.length ≠ yData.length then []
  else
    let xMin := listMin xData
    let xMax := listMax xData
    let crossings := adjustCrossings s baseline xMin xMax
      (findCrossings s baseline xMin xMax)
    if crossings.length < 2 then []
    else
      let sorted := sortCrossings crossings
      (sorted.zip sorted.tail).filterMap
        (processPair s baseline (xData.zip yData))

/-- The `minArea` computed by `calculateHydrogens`: initialised to the first
peak's area (whatever its sign), then lowered by any strictly positive area
below the running value. -/
def minAreaOf : List Peak → ℚ
  | [] => 0
  | p :: rest =>
    (p :: rest).foldl
      (fun acc q => if q.area > 0 ∧ q.area < acc then q.area else acc) p.area

/-- `PeakDetector::calculateHydrogens`: empty list untouched; otherwise set
every peak's `hydrogens` to `round(area / minArea)`. -/
def calculateHydrogens (peaks : List Peak) : List Peak :=
  if peaks.isEmpty then peaks
  else
    let minArea := minAreaOf peaks
    peaks.map (fun p => { p with hydrogens := roundQ (p.area / minArea) })

/-- Written from the spec's words, for comparison with `minAreaOf`: "find the
minimum positive area across all peaks". -/
def minPositiveArea (peaks : List Peak) : Option ℚ :=
  ((peaks.map Peak.area).filter (fun a => 0 < a)).min?

end PeakDetector

/-! ## Concrete fixtures used by counterexamples and witnesses

Each spline fixture is the state produced by an actual `compute` call (the
linking equations are proved below the definitions). -/

/-- The state after `compute` on the two points `(0,5), (1,7)`: the 2-point
linear special case with slope 2. -/
def priorS : SplineState := ⟨[0, 1], [5, 7], [2, 2], [0, 0], [0, 0], true⟩

/-- The state after `compute` on `(0,10), (1,10)`: a constant signal of
height 10. -/
def constS : SplineState := ⟨[0, 1], [10, 10], [0, 0], [0, 0], [0, 0], true⟩

/-- The state after `compute` on `(0,0), (1,1000)`: the linear signal
`y = 1000 x`. -/
def linS : SplineState := ⟨[0, 1], [0, 1000], [1000, 1000], [0, 0], [0, 0], true⟩

/-- A peak whose integrated area came out negative. -/
def negAreaPeak : Peak := ⟨1, 2, 3/2, 5, -1, 0⟩

/-- A peak with positive area 2. -/
def posAreaPeak : Peak := ⟨3, 4, 7/2, 6, 2, 0⟩

/-- A peak with positive area 3. -/
def areaThreePeak : Peak := ⟨1, 2, 3/2, 5, 3, 0⟩

/-- A peak with positive area 1. -/
def areaOnePeak : Peak := ⟨3, 4, 7/2, 6, 1, 0⟩

/-! ## Linking the fixtures to `compute` -/

theorem priorS_eq_compute : (CubicSpline.compute CubicSpline.new [0, 1] [5, 7]).2 = priorS := by
  with_unfolding_all rfl

theorem constS_eq_compute : (CubicSpline.compute CubicSpline.new [0, 1] [10, 10]).2 = constS := by
  with_unfolding_all rfl

theorem linS_eq_compute : (CubicSpline.compute CubicSpline.new [0, 1] [0, 1000]).2 = linS := by
  with_unfolding_all rfl

/-! ## General helper lemmas -/

theorem getD_range_map (l : List ℚ) :
    (List.range l.length).map (fun i => l.getD i 0) = l := by
  induction l with
  | nil => rfl
  | cons a t ih =>
    simp only [List.length_cons, List.range_succ_eq_map, List.map_cons, List.map_map]
    refine congrArg (a :: ·) ?_
    have hfun : ((fun i => (a :: t).getD i 0) ∘ Nat.succ) = fun i => t.getD i 0 := by
      funext i
      simp [List.getD]
    rw [hfun, ih]

/-! ## C6 — adaptive quadrature has no recursion-depth guard -/

/-- C6: the claim asserts `adaptiveHelper` imposes an explicit maximum
recursion depth in addition to the tolerance test, so that even tolerance 0
terminates within a bounded depth.  The code has no such guard: with
tolerance 0 the acceptance test `error < tolerance` can never succeed
(`error ≥ 0`), so the recursion exceeds every stack bound — for every fuel
value the fuelled model runs out of fuel (`none`) instead of returning. -/
theorem adaptiveHelper_zero_tolerance_diverges
    (s : SplineState) (a b fa fb fmid : ℚ) (fuel : ℕ) :
    Integration.adaptiveHelper s a b 0 fa fb fmid fuel = none := by
  induction fuel generalizing a b fa fb fmid with
  | zero => rfl
  | succ fuel ih =>
    simp only [Integration.adaptiveHelper, zero_div]
    split
    · next hlt => exact absurd hlt (not_lt.mpr (by positivity))
    · rw [ih]

/-! ## C7 — integrating an uncomputed interpolant returns 0 -/

/-- C7: each of the four integration routines checks `isComputed()` first
and, when the fit has not completed, reports an error and returns exactly
`0.0`, for every interval and tolerance (and, for the fuelled adaptive
model, every stack size). -/
theorem integration_uncomputed_returns_zero
    (s : SplineState) (a b tolerance : ℚ) (fuel : ℕ)
    (h : s.computed = false) :
    Integration.newtonCotes s a b tolerance = 0
    ∧ Integration.romberg s a b tolerance = 0
    ∧ Integration.adaptive s a b tolerance fuel = some 0
    ∧ Integration.gaussLegendre s a b = 0 := by
  refine ⟨?_, ?_, ?_, ?_⟩ <;>
    simp [Integration.newtonCotes, Integration.romberg, Integration.adaptive,
      Integration.gaussLegendre, h]

/-- Witness for C7 at the freshly constructed (uncomputed) spline. -/
theorem integration_uncomputed_returns_zero_witness :
    Integration.newtonCotes CubicSpline.new 0 1 (1/100) = 0
    ∧ Integration.romberg CubicSpline.new 0 1 (1/100) = 0
    ∧ Integration.adaptive CubicSpline.new 0 1 (1/100) 7 = some 0
    ∧ Integration.gaussLegendre CubicSpline.new 0 1 = 0 :=
  integration_uncomputed_returns_zero CubicSpline.new 0 1 (1/100) 7 rfl

/-! ## C10 — calculateHydrogens only writes the hydrogens field -/

/-- C10: `calculateHydrogens` preserves the number of peaks and the
`begin`, `end`, `location`, `maximum` and `area` fields of every peak; it
writes only `hydrogens`. -/
theorem calculateHydrogens_frame (peaks : List Peak) :
    (PeakDetector.calculateHydrogens peaks).length = peaks.length
    ∧ (PeakDetector.calculateHydrogens peaks).map Peak.begin_ = peaks.map Peak.begin_
    ∧ (PeakDetector.calculateHydrogens peaks).map Peak.end_ = peaks.map Peak.end_
    ∧ (PeakDetector.calculateHydrogens peaks).map Peak.location = peaks.map Peak.location
    ∧ (PeakDetector.calculateHydrogens peaks).map Peak.maximum = peaks.map Peak.maximum
    ∧ (PeakDetector.calculateHydrogens peaks).map Peak.area = peaks.map Peak.area := by
  unfold PeakDetector.calculateHydrogens
  by_cases hne : peaks.isEmpty
  · simp [hne]
  · simp [hne, List.map_map, Function.comp]

/-! ## C8 — boxcar with window size 1 is the identity -/

theorem reflectIdx_coe_lt (n i : ℕ) (h : i < n) :
    Filter.reflectIdx n (i : ℤ) = (i : ℤ) := by
  have h0 : ¬((i : ℤ) < 0) := by omega
  have h1 : ¬((i : ℤ) ≥ (n : ℤ)) := by omega
  simp [Filter.reflectIdx, h0, h1]

/-- A single boxcar pass with window size 1 returns its input. -/
theorem boxcarPass_one (data : List ℚ) : Filter.boxcarPass data 1 = data := by
  rcases data with _ | ⟨a, t⟩
  · rfl
  · have hcond : ¬((1 : ℤ) ≤ 0 ∨ (a :: t).isEmpty = true) := by simp
    simp only [Filter.boxcarPass]
    rw [if_neg hcond]
    have hwr : Filter.windowRange (-(((1 : ℤ) - 1) / 2)) (((1 : ℤ) - 1) / 2) = [0] := rfl
    rw [hwr]
    have hmap : ∀ i ∈ List.range (a :: t).length,
        (List.foldl
          (fun acc j => acc + (a :: t).getD (Filter.reflectIdx (a :: t).length ((i : ℤ) + j)).toNat 0)
          0 [0]) / (((1 : ℤ) : ℚ)) = (a :: t).getD i 0 := by
      intro i hi
      rw [List.mem_range] at hi
      simp only [List.foldl_cons, List.foldl_nil, add_zero, zero_add]
      rw [reflectIdx_coe_lt (a :: t).length i hi]
      simp
    rw [List.map_congr_left hmap, getD_range_map]

/-- C8: the moving-average filter with window size 1 is the identity
transform, for every input sequence and every number of passes. -/
theorem applyBoxcar_size_one_identity (data : List ℚ) (numPasses : ℕ) :
    Filter.applyBoxcar data 1 numPasses = data := by
  induction numPasses with
  | zero => rfl
  | succ k ih =>
    show Filter.boxcarPass (Filter.applyBoxcar data 1 k) 1 = data
    rw [ih, boxcarPass_one]

/-! ## C5 — degenerate filter inputs -/

/-- Counterexample to C5 as stated: a Savitzky-Golay pass with
`filterSize = 0` is *not* a no-op — the size is replaced by the default
kernel 5 and the data is smoothed. -/
theorem sgPass_nonpositive_size_not_noop_cex :
    Filter.sgPass [1, 2] 0 ≠ [1, 2]
    ∧ Filter.sgPass [1, 2] 0 = Filter.sgPass [1, 2] 5 := by
  constructor
  · with_unfolding_all decide
  · with_unfolding_all rfl

/-- C5 as amended: a nonpositive `filterSize` is a no-op for the boxcar
filter (single pass and any number of passes), empty sequences pass through
both filters unchanged, but the Savitzky-Golay pass substitutes the default
kernel size 5 for *any* size outside {5, 11, 17}, nonpositive sizes
included. -/
theorem filter_degenerate_spec (data : List ℚ) (filterSize : ℤ) (numPasses : ℕ) :
    (filterSize ≤ 0 → Filter.boxcarPass data filterSize = data)
    ∧ (filterSize ≤ 0 → Filter.applyBoxcar data filterSize numPasses = data)
    ∧ Filter.boxcarPass [] filterSize = []
    ∧ Filter.sgPass [] filterSize = []
    ∧ (filterSize ≠ 5 → filterSize ≠ 11 → filterSize ≠ 17 →
        Filter.sgPass data filterSize = Filter.sgPass data 5) := by
  refine ⟨?_, ?_, ?_, ?_, ?_⟩
  · intro h
    simp [Filter.boxcarPass, h]
  · intro h
    induction numPasses with
    | zero => rfl
    | succ k ih =>
      show Filter.boxcarPass (Filter.applyBoxcar data filterSize k) filterSize = data
      rw [ih]
      simp [Filter.boxcarPass, h]
  · simp [Filter.boxcarPass]
  · simp [Filter.sgPass]
  · intro h5 h11 h17
    simp [Filter.sgPass, h5, h11, h17]

/-- Witness for C5 at `filterSize = -4`. -/
theorem filter_degenerate_spec_witness :
    Filter.boxcarPass [3] (-4) = [3]
    ∧ Filter.applyBoxcar [3] (-4) 2 = [3]
    ∧ Filter.boxcarPass [] (-4) = []
    ∧ Filter.sgPass [] (-4) = []
    ∧ Filter.sgPass [3] (-4) = Filter.sgPass [3] 5 := by
  obtain ⟨h1, h2, h3, h4, h5⟩ := filter_degenerate_spec [3] (-4) 2
  exact ⟨h1 (by decide), h2 (by decide), h3, h4, h5 (by decide) (by decide) (by decide)⟩

/-! ## C2 — hydrogen quantification divisor -/

/-- The `minArea` fold of `calculateHydrogens`, started from a *positive*
accumulator, computes the minimum of the accumulator and all positive
areas. -/
theorem minArea_foldl_eq_min (l : List Peak) :
    ∀ acc : ℚ, 0 < acc →
    l.foldl (fun acc q => if q.area > 0 ∧ q.area < acc then q.area else acc) acc
      = ((l.map Peak.area).filter (fun a => 0 < a)).foldl min acc := by
  induction l with
  | nil => intro acc _; rfl
  | cons q l ih =>
    intro acc hacc
    rw [List.foldl_cons, List.map_cons, List.filter_cons]
    by_cases hq : 0 < q.area
    · have hstep : (if q.area > 0 ∧ q.area < acc then q.area else acc) = min acc q.area := by
        rcases lt_or_ge q.area acc with hlt | hge
        · rw [if_pos ⟨hq, hlt⟩, min_eq_right hlt.le]
        · rw [if_neg ?_, min_eq_left hge]
          push_neg
          intro _
          exact hge
      rw [hstep, if_pos (show decide (0 < q.area) = true by simpa using hq),
        List.foldl_cons]
      exact ih (min acc q.area) (lt_min hacc hq)
    · have hstep : (if q.area > 0 ∧ q.area < acc then q.area else acc) = acc := by
        rw [if_neg ?_]
        push_neg
        intro h
        exact absurd h hq
      rw [hstep, if_neg (show ¬(decide (0 < q.area) = true) by simpa using hq)]
      exact ih acc hacc

/-- Counterexample to C2 as stated: when the *first* peak's area is
nonpositive, the divisor is that first area (here −1), not the minimum
positive area (here 2): the code yields hydrogens `[1, −2]` where the claim
demands `[round(−1/2), round(2/2)] = [−1, 1]`. -/
theorem calculateHydrogens_first_nonpositive_cex :
    PeakDetector.minPositiveArea [negAreaPeak, posAreaPeak] = some 2
    ∧ PeakDetector.minAreaOf [negAreaPeak, posAreaPeak] = -1
    ∧ (PeakDetector.calculateHydrogens [negAreaPeak, posAreaPeak]).map Peak.hydrogens = [1, -2]
    ∧ [roundQ (negAreaPeak.area / 2), roundQ (posAreaPeak.area / 2)] = [-1, 1] := by
  refine ⟨?_, ?_, ?_, ?_⟩ <;> with_unfolding_all decide

/-- C2 as amended: *provided the first peak's area is positive*, the divisor
computed by `calculateHydrogens` is exactly the minimum positive area across
all peaks, and every peak's `hydrogens` becomes `round(area / that
minimum)`.  (When the first peak's area is nonpositive the divisor is that
first area instead — see the counterexample.) -/
theorem calculateHydrogens_min_positive (p : Peak) (rest : List Peak)
    (hp : 0 < p.area) :
    PeakDetector.minPositiveArea (p :: rest)
      = some (PeakDetector.minAreaOf (p :: rest))
    ∧ (PeakDetector.calculateHydrogens (p :: rest)).map Peak.hydrogens
      = (p :: rest).map (fun q =>
          roundQ (q.area / (PeakDetector.minPositiveArea (p :: rest)).getD 0)) := by
  have hfold : PeakDetector.minAreaOf (p :: rest)
      = ((rest.map Peak.area).filter (fun a => 0 < a)).foldl min p.area := by
    unfold PeakDetector.minAreaOf
    have hstep : (if p.area > 0 ∧ p.area < p.area then p.area else p.area) = p.area := by
      simp
    simp only [List.foldl_cons, hstep]
    exact minArea_foldl_eq_min rest p.area hp
  have hmin : PeakDetector.minPositiveArea (p :: rest)
      = some (PeakDetector.minAreaOf (p :: rest)) := by
    unfold PeakDetector.minPositiveArea
    rw [List.map_cons, List.filter_cons, if_pos (by simpa using hp), List.min?_cons', hfold]
  refine ⟨hmin, ?_⟩
  unfold PeakDetector.calculateHydrogens
  rw [if_neg (by simp)]
  rw [hmin, List.map_map]
  rfl

/-- Witness for C2 (amended) on two peaks with areas 3 and 1. -/
theorem calculateHydrogens_min_positive_witness :
    PeakDetector.minPositiveArea [areaThreePeak, areaOnePeak]
      = some (PeakDetector.minAreaOf [areaThreePeak, areaOnePeak])
    ∧ (PeakDetector.calculateHydrogens [areaThreePeak, areaOnePeak]).map Peak.hydrogens
      = [areaThreePeak, areaOnePeak].map (fun q =>
          roundQ (q.area /
            (PeakDetector.minPositiveArea [areaThreePeak, areaOnePeak]).getD 0)) :=
  calculateHydrogens_min_positive areaThreePeak [areaOnePeak]
    (by with_unfolding_all decide)

/-! ## C1 — compute is not atomic on a strictly-increasing violation -/

/-- Counterexample to C1 as stated: starting from a previously fitted
interpolant (`priorS`, fitted to `(0,5),(1,7)`), a `compute` call with
non-increasing `x = [0,0,1]` fails, yet the committed knot arrays have been
overwritten with the new (invalid) data — the prior state is lost. -/
theorem compute_not_atomic_cex :
    (CubicSpline.compute priorS [0, 0, 1] [1, 2, 3]).1 = false
    ∧ (CubicSpline.compute priorS [0, 0, 1] [1, 2, 3]).2 ≠ priorS
    ∧ (CubicSpline.compute priorS [0, 0, 1] [1, 2, 3]).2.x = [0, 0, 1]
    ∧ priorS.x = [0, 1] := by
  refine ⟨?_, ?_, ?_, ?_⟩ <;> with_unfolding_all decide

/-- C1 as amended: a size mismatch or fewer than 2 points fails *before any
mutation*, leaving the state exactly as it was; but a non-strictly-increasing
`x` with ≥ 3 points fails only *after* the knot arrays have been overwritten
with the new inputs and the coefficient arrays resized (the `computed` flag
alone keeps its prior value). -/
theorem compute_precondition_failure (st : SplineState) (xData yData : List ℚ) :
    (xData.length ≠ yData.length ∨ xData.length < 2 →
      CubicSpline.compute st xData yData = (false, st))
    ∧ (xData.length = yData.length → 3 ≤ xData.length →
      (∃ i, i < xData.length - 1 ∧ xData.getD (i + 1) 0 - xData.getD i 0 ≤ 0) →
      CubicSpline.compute st xData yData =
        (false, { st with
                  x := xData, y := yData,
                  b := CubicSpline.resize st.b xData.length,
                  c := CubicSpline.resize st.c xData.length,
                  d := CubicSpline.resize st.d xData.length })) := by
  constructor
  · intro h
    simp only [CubicSpline.compute]
    rw [if_pos h]
  · rintro hlen hge ⟨i, hi, hle⟩
    have hany : (((List.range (xData.length - 1)).map
        (fun i => xData.getD (i + 1) 0 - xData.getD i 0)).any
          (fun hi => decide (hi ≤ 0))) = true := by
      simp only [List.any_eq_true, List.mem_map, List.mem_range, decide_eq_true_eq]
      exact ⟨_, ⟨i, hi, rfl⟩, hle⟩
    simp only [CubicSpline.compute]
    rw [if_neg (by omega), if_neg (by omega), if_pos hany]

/-- Witness for C1 (amended): a size-mismatch call leaves `priorS`
untouched; the non-increasing call overwrites the knot arrays. -/
theorem compute_precondition_failure_witness :
    CubicSpline.compute priorS [0] [] = (false, priorS)
    ∧ CubicSpline.compute priorS [0, 0, 1] [1, 2, 3] =
        (false, { priorS with
                  x := [0, 0, 1], y := [1, 2, 3],
                  b := CubicSpline.resize priorS.b 3,
                  c := CubicSpline.resize priorS.c 3,
                  d := CubicSpline.resize priorS.d 3 }) :=
  ⟨(compute_precondition_failure priorS [0] []).1 (by decide),
   (compute_precondition_failure priorS [0, 0, 1] [1, 2, 3]).2 (by decide) (by decide)
     ⟨0, by decide, by with_unfolding_all decide⟩⟩

/-! ## The crossing scan, characterised -/

/-- The sampling loop of `findCrossings` collects, in order, one
bisection-refined root for every sample index `j` whose consecutive values
bracket a sign change. -/
theorem crossLoop_spec (s : SplineState) (yVal xMin dx : ℚ) :
    ∀ (k i : ℕ) (acc : List ℚ) (pv px : ℚ),
    pv = CubicSpline.crossSampleVal s yVal xMin dx i →
    px = CubicSpline.crossSampleX xMin dx i →
    CubicSpline.crossLoop s yVal xMin dx k (i + 1) pv px acc
      = acc ++ ((List.range' (i + 1) k).filter (fun j =>
          decide (CubicSpline.crossSampleVal s yVal xMin dx (j - 1)
            * CubicSpline.crossSampleVal s yVal xMin dx j < 0))).map (fun j =>
          CubicSpline.bisect s yVal 50 (CubicSpline.crossSampleX xMin dx (j - 1))
            (CubicSpline.crossSampleX xMin dx j)
            (CubicSpline.crossSampleVal s yVal xMin dx (j - 1))
            (CubicSpline.crossSampleVal s yVal xMin dx j)) := by
  intro k
  induction k with
  | zero =>
    intro i acc pv px hpv hpx
    simp [CubicSpline.crossLoop]
  | succ k ih =>
    intro i acc pv px hpv hpx
    rw [CubicSpline.crossLoop, List.range'_succ, List.filter_cons]
    subst hpv hpx
    have hsample : xMin + ((i + 1 : ℕ) : ℚ) * dx
        = CubicSpline.crossSampleX xMin dx (i + 1) := rfl
    have hval : CubicSpline.evaluate s (CubicSpline.crossSampleX xMin dx (i + 1)) - yVal
        = CubicSpline.crossSampleVal s yVal xMin dx (i + 1) := rfl
    simp only [hsample, hval, Nat.add_sub_cancel]
    by_cases hcross : CubicSpline.crossSampleVal s yVal xMin dx i
        * CubicSpline.crossSampleVal s yVal xMin dx (i + 1) < 0
    · rw [if_pos hcross, if_pos (by simpa using hcross)]
      rw [ih (i + 1) _ _ _ rfl rfl]
      simp
    · rw [if_neg hcross, if_neg (by simpa using hcross)]
      exact ih (i + 1) acc _ _ rfl rfl

/-- `findCrossings`, restated through `crossLoop_spec`. -/
theorem findCrossings_eq (s : SplineState) (yVal xMin xMax : ℚ)
    (hc : s.computed = true) (hx : s.x.isEmpty = false) :
    CubicSpline.findCrossings s yVal xMin xMax
      = ((List.range' 1 1000).filter (fun j =>
          decide (CubicSpline.crossSampleVal s yVal xMin ((xMax - xMin) / 1000) (j - 1)
            * CubicSpline.crossSampleVal s yVal xMin ((xMax - xMin) / 1000) j < 0))).map
          (fun j =>
          CubicSpline.bisect s yVal 50
            (CubicSpline.crossSampleX xMin ((xMax - xMin) / 1000) (j - 1))
            (CubicSpline.crossSampleX xMin ((xMax - xMin) / 1000) j)
            (CubicSpline.crossSampleVal s yVal xMin ((xMax - xMin) / 1000) (j - 1))
            (CubicSpline.crossSampleVal s yVal xMin ((xMax - xMin) / 1000) j)) := by
  unfold CubicSpline.findCrossings
  rw [if_neg (by simp [hc, hx])]
  have h0 : CubicSpline.evaluate s xMin - yVal
      = CubicSpline.crossSampleVal s yVal xMin ((xMax - xMin) / 1000) 0 := by
    simp [CubicSpline.crossSampleVal, CubicSpline.crossSampleX]
  have h0x : xMin = CubicSpline.crossSampleX xMin ((xMax - xMin) / 1000) 0 := by
    simp [CubicSpline.crossSampleX]
  rw [crossLoop_spec s yVal xMin ((xMax - xMin) / 1000) 1000 0 [] _ _ h0 h0x]
  rfl

/-! ## Concrete spline evaluations -/

/-- On the two-knot grid `[0, 1]` every query (below, inside or above the
knot range) selects interval 0. -/
theorem findIntervalIdx_pair (q : ℚ) : CubicSpline.findIntervalIdx [0, 1] q = 0 := by
  simp only [CubicSpline.findIntervalIdx]
  split
  · rfl
  · split
    · rfl
    · rfl

/-- `linS` evaluates to `1000·x` everywhere (interval 0 carries the cubic
`0 + 1000·dx + 0·dx² + 0·dx³`, also used for extrapolation). -/
theorem evaluate_linS (q : ℚ) : CubicSpline.evaluate linS q = 1000 * q := by
  simp only [CubicSpline.evaluate, linS]
  rw [if_neg (by simp)]
  rw [findIntervalIdx_pair]
  simp [List.getD]

/-- `constS` evaluates to the constant 10 everywhere. -/
theorem evaluate_constS (q : ℚ) : CubicSpline.evaluate constS q = 10 := by
  simp only [CubicSpline.evaluate, constS]
  rw [if_neg (by simp)]
  rw [findIntervalIdx_pair]
  simp [List.getD]

/-- The crossing search on the constant-10 spline at level 1 finds no sign
change: every sampled value is 9. -/
theorem findCrossings_constS : CubicSpline.findCrossings constS 1 0 1 = [] := by
  rw [findCrossings_eq constS 1 0 1 rfl rfl]
  have hv : ∀ m : ℕ,
      CubicSpline.crossSampleVal constS 1 0 (((1 : ℚ) - 0) / 1000) m = 9 := by
    intro m
    simp [CubicSpline.crossSampleVal, evaluate_constS]
    norm_num
  have hf : (List.range' 1 1000).filter (fun j =>
      decide (CubicSpline.crossSampleVal constS 1 0 (((1 : ℚ) - 0) / 1000) (j - 1)
        * CubicSpline.crossSampleVal constS 1 0 (((1 : ℚ) - 0) / 1000) j < 0)) = [] := by
    rw [List.filter_eq_nil_iff]
    intro j _
    rw [hv, hv]
    norm_num
  rw [hf, List.map_nil]

/-- The sampled values of `linS` against level `1001/2`: sample `m` reads
`m − 1001/2`. -/
theorem crossSampleVal_linS (m : ℕ) :
    CubicSpline.crossSampleVal linS (1001/2) 0 (((1 : ℚ) - 0) / 1000) m
      = (m : ℚ) - 1001/2 := by
  simp [CubicSpline.crossSampleVal, CubicSpline.crossSampleX, evaluate_linS]
  ring

/-- The crossing search on `linS` at level `1001/2`: the only sign change is
between samples 500 and 501, and the bisection hits the root `1001/2000`
exactly at its first midpoint. -/
theorem findCrossings_linS :
    CubicSpline.findCrossings linS (1001/2) 0 1 = [1001/2000] := by
  rw [findCrossings_eq linS (1001/2) 0 1 rfl rfl]
  have hfilter : (List.range' 1 1000).filter (fun j =>
      decide (CubicSpline.crossSampleVal linS (1001/2) 0 (((1 : ℚ) - 0) / 1000) (j - 1)
        * CubicSpline.crossSampleVal linS (1001/2) 0 (((1 : ℚ) - 0) / 1000) j < 0))
      = [501] := by
    have hcongr : (List.range' 1 1000).filter (fun j =>
        decide (CubicSpline.crossSampleVal linS (1001/2) 0 (((1 : ℚ) - 0) / 1000) (j - 1)
          * CubicSpline.crossSampleVal linS (1001/2) 0 (((1 : ℚ) - 0) / 1000) j < 0))
        = (List.range' 1 1000).filter (fun j => decide (j = 501)) := by
      apply List.filter_congr
      intro j hj
      rw [List.mem_range'_1] at hj
      rw [crossSampleVal_linS, crossSampleVal_linS, Nat.cast_sub hj.1]
      apply decide_eq_decide.mpr
      constructor
      · intro hprod
        by_contra hne
        rcases Nat.lt_or_ge j 501 with hlt | hge
        · have hq : (j : ℚ) ≤ 500 := by exact_mod_cast Nat.lt_succ_iff.mp hlt
          push_cast at hprod
          nlinarith
        · have hj502 : (502 : ℕ) ≤ j := by omega
          have hq : (502 : ℚ) ≤ (j : ℚ) := by exact_mod_cast hj502
          push_cast at hprod
          nlinarith
      · rintro rfl
        push_cast
        norm_num
    rw [hcongr]
    have hsplit : List.range' 1 1000 = List.range' 1 500 ++ List.range' 501 500 := by
      have := List.range'_append 1 500 500 1
      simpa using this.symm
    have hleft : (List.range' 1 500).filter (fun j => decide (j = 501)) = [] := by
      rw [List.filter_eq_nil_iff]
      intro j hj
      rw [List.mem_range'_1] at hj
      simp only [decide_eq_true_eq]
      omega
    have hright : (List.range' 502 499).filter (fun j => decide (j = 501)) = [] := by
      rw [List.filter_eq_nil_iff]
      intro j hj
      rw [List.mem_range'_1] at hj
      simp only [decide_eq_true_eq]
      omega
    rw [hsplit, List.filter_append, hleft, List.range'_succ, List.filter_cons, hright]
    simp
  rw [hfilter, List.map_cons, List.map_nil]
  have hx500 : CubicSpline.crossSampleX 0 (((1 : ℚ) - 0) / 1000) (501 - 1) = 1/2 := by
    simp [CubicSpline.crossSampleX]
    norm_num
  have hx501 : CubicSpline.crossSampleX 0 (((1 : ℚ) - 0) / 1000) 501 = 501/1000 := by
    simp [CubicSpline.crossSampleX]
    norm_num
  have hv500 : CubicSpline.crossSampleVal linS (1001/2) 0 (((1 : ℚ) - 0) / 1000) (501 - 1)
      = -(1/2) := by
    rw [crossSampleVal_linS]
    norm_num
  have hv501 : CubicSpline.crossSampleVal linS (1001/2) 0 (((1 : ℚ) - 0) / 1000) 501
      = 1/2 := by
    rw [crossSampleVal_linS]
    norm_num
  rw [hx500, hx501, hv500, hv501]
  have hbis : CubicSpline.bisect linS (1001/2) 50 (1/2) (501/1000) (-(1/2)) (1/2)
      = 1001/2000 := by
    show CubicSpline.bisect linS (1001/2) (49 + 1) (1/2) (501/1000) (-(1/2)) (1/2)
      = 1001/2000
    rw [CubicSpline.bisect]
    rw [evaluate_linS]
    rw [if_pos (by norm_num)]
    norm_num
  rw [hbis]

/-! ## The data-point scan, characterised -/

/-- Invariant of `scanMax`: the running maximum never decreases, bounds every
in-range sample value from above, and either nothing was recorded (the state
is returned untouched) or some in-range sample achieves the final maximum,
`found` is set, and the maximum strictly increased. -/
theorem scanMax_spec (xb xe : ℚ) :
    ∀ (ps : List (ℚ × ℚ)) (maxY maxX : ℚ) (found : Bool),
    maxY ≤ (PeakDetector.scanMax xb xe ps maxY maxX found).1
    ∧ (∀ p ∈ ps, p.1 ≥ xb → p.1 ≤ xe →
        p.2 ≤ (PeakDetector.scanMax xb xe ps maxY maxX found).1)
    ∧ (PeakDetector.scanMax xb xe ps maxY maxX found = (maxY, maxX, found)
       ∨ ∃ p ∈ ps, (p.1 ≥ xb ∧ p.1 ≤ xe)
           ∧ p.2 = (PeakDetector.scanMax xb xe ps maxY maxX found).1
           ∧ (PeakDetector.scanMax xb xe ps maxY maxX found).2.2 = true
           ∧ maxY < (PeakDetector.scanMax xb xe ps maxY maxX found).1) := by
  intro ps
  induction ps with
  | nil =>
    intro maxY maxX found
    refine ⟨le_refl _, ?_, Or.inl rfl⟩
    intro p hp
    exact absurd hp (List.not_mem_nil p)
  | cons phead rest ih =>
    obtain ⟨xj, yj⟩ := phead
    intro maxY maxX found
    simp only [PeakDetector.scanMax]
    by_cases hin : xj ≥ xb ∧ xj ≤ xe
    · by_cases hy : yj > maxY
      · rw [if_pos hin, if_pos hy]
        obtain ⟨ih1, ih2, ih3⟩ := ih yj xj true
        refine ⟨le_trans (le_of_lt hy) ih1, ?_, ?_⟩
        · intro p hp hpb hpe
          rcases List.mem_cons.mp hp with heq | hp'
          · rw [heq]
            exact ih1
          · exact ih2 p hp' hpb hpe
        · rcases ih3 with heq | ⟨p, hp, hpin, hpeq, hpf, hplt⟩
          · refine Or.inr ⟨(xj, yj), List.mem_cons_self _ _, hin, ?_, ?_, ?_⟩
            · rw [heq]
            · rw [heq]
            · rw [heq]
              exact hy
          · exact Or.inr ⟨p, List.mem_cons_of_mem _ hp, hpin, hpeq, hpf,
              lt_trans hy hplt⟩
      · rw [if_pos hin, if_neg hy]
        obtain ⟨ih1, ih2, ih3⟩ := ih maxY maxX found
        refine ⟨ih1, ?_, ?_⟩
        · intro p hp hpb hpe
          rcases List.mem_cons.mp hp with heq | hp'
          · rw [heq]
            exact le_trans (not_lt.mp hy) ih1
          · exact ih2 p hp' hpb hpe
        · rcases ih3 with heq | ⟨p, hp, hpin, hpeq, hpf, hplt⟩
          · exact Or.inl heq
          · exact Or.inr ⟨p, List.mem_cons_of_mem _ hp, hpin, hpeq, hpf, hplt⟩
    · rw [if_neg hin]
      obtain ⟨ih1, ih2, ih3⟩ := ih maxY maxX found
      refine ⟨ih1, ?_, ?_⟩
      · intro p hp hpb hpe
        rcases List.mem_cons.mp hp with heq | hp'
        · rw [heq] at hpb hpe
          exact absurd ⟨hpb, hpe⟩ hin
        · exact ih2 p hp' hpb hpe
      · rcases ih3 with heq | ⟨p, hp, hpin, hpeq, hpf, hplt⟩
        · exact Or.inl heq
        · exact Or.inr ⟨p, List.mem_cons_of_mem _ hp, hpin, hpeq, hpf, hplt⟩

/-- The pair loop body, characterised: a pair whose in-range samples all sit
at or below the baseline is discarded (even when samples do fall in range),
and an emitted peak's `maximum` is the largest in-range sample value, which
strictly exceeds the baseline. -/
theorem processPair_some_aux (s : SplineState) (baseline : ℚ)
    (samples : List (ℚ × ℚ)) (xb xe : ℚ) :
    ((∀ p ∈ samples, p.1 ≥ xb → p.1 ≤ xe → p.2 ≤ baseline) →
      PeakDetector.processPair s baseline samples (xb, xe) = none)
    ∧ (∀ pk : Peak, PeakDetector.processPair s baseline samples (xb, xe) = some pk →
        (∃ p ∈ samples, (p.1 ≥ xb ∧ p.1 ≤ xe) ∧ p.2 = pk.maximum)
        ∧ (∀ p ∈ samples, p.1 ≥ xb → p.1 ≤ xe → p.2 ≤ pk.maximum)
        ∧ baseline < pk.maximum) := by
  obtain ⟨h1, h2, h3⟩ := scanMax_spec xb xe samples baseline ((xb + xe) / 2) false
  constructor
  · intro hbelow
    by_cases hmid : CubicSpline.evaluate s ((xb + xe) / 2) ≤ baseline
    · simp [PeakDetector.processPair, hmid]
    · have hscan : PeakDetector.scanMax xb xe samples baseline ((xb + xe) / 2) false
          = (baseline, (xb + xe) / 2, false) := by
        rcases h3 with heq | ⟨p, hp, hpin, hpeq, hpf, hplt⟩
        · exact heq
        · exfalso
          have hle := hbelow p hp hpin.1 hpin.2
          rw [hpeq] at hle
          exact absurd (lt_of_lt_of_le hplt hle) (lt_irrefl _)
      simp [PeakDetector.processPair, hmid, hscan]
  · intro pk hpk
    by_cases hmid : CubicSpline.evaluate s ((xb + xe) / 2) ≤ baseline
    · simp [PeakDetector.processPair, hmid] at hpk
    · by_cases hf : (PeakDetector.scanMax xb xe samples baseline
          ((xb + xe) / 2) false).2.2 = true
      · by_cases hloc : |(xb + xe) / 2| < (50 : ℚ)⁻¹
        · simp [PeakDetector.processPair, hmid, hf, hloc] at hpk
        · simp [PeakDetector.processPair, hmid, hf, hloc] at hpk
          rcases h3 with heq | ⟨p, hp, hpin, hpeq, hpf, hplt⟩
          · rw [heq] at hf
            simp at hf
          · refine ⟨⟨p, hp, hpin, ?_⟩, ?_, ?_⟩
            · rw [hpeq, ← hpk]
            · intro q hq hqb hqe
              rw [← hpk]
              exact h2 q hq hqb hqe
            · rw [← hpk]
              exact hplt
      · have hf' : (PeakDetector.scanMax xb xe samples baseline
            ((xb + xe) / 2) false).2.2 = false := by
          simpa using hf
        simp [PeakDetector.processPair, hmid, hf'] at hpk

/-- Step 2–4 of `detectPeaks` once the input guards pass. -/
theorem detectPeaks_unfold (s : SplineState) (xData yData : List ℚ) (baseline : ℚ)
    (hc : s.computed = true) (hx : xData.isEmpty = false) (hy : yData.isEmpty = false)
    (hlen : xData.length = yData.length) :
    PeakDetector.detectPeaks s xData yData baseline
      = (let crossings := PeakDetector.adjustCrossings s baseline
            (PeakDetector.listMin xData) (PeakDetector.listMax xData)
            (CubicSpline.findCrossings s baseline
              (PeakDetector.listMin xData) (PeakDetector.listMax xData))
         if crossings.length < 2 then []
         else ((PeakDetector.sortCrossings crossings).zip
              (PeakDetector.sortCrossings crossings).tail).filterMap
            (PeakDetector.processPair s baseline (xData.zip yData))) := by
  unfold PeakDetector.detectPeaks
  rw [if_neg (by simp [hc, hx, hy]), if_neg (by simp [hlen])]

/-- The boundary fix-up leaves an empty crossing list empty. -/
theorem adjustCrossings_nil (s : SplineState) (baseline xMin xMax : ℚ) :
    PeakDetector.adjustCrossings s baseline xMin xMax [] = [] := by
  simp [PeakDetector.adjustCrossings]

/-- When the interior crossing search finds nothing, `detectPeaks` reports
zero peaks, whatever the boundary values of the signal. -/
theorem detectPeaks_of_no_crossings (s : SplineState) (xData yData : List ℚ)
    (baseline : ℚ)
    (h : CubicSpline.findCrossings s baseline
      (PeakDetector.listMin xData) (PeakDetector.listMax xData) = []) :
    PeakDetector.detectPeaks s xData yData baseline = [] := by
  unfold PeakDetector.detectPeaks
  split
  · rfl
  · split
    · rfl
    · simp [h, adjustCrossings_nil]

/-- `listMin` on the two-sample grid. -/
theorem listMin_pair : PeakDetector.listMin [0, 1] = 0 := by
  with_unfolding_all rfl

/-- `listMax` on the two-sample grid. -/
theorem listMax_pair : PeakDetector.listMax [0, 1] = 1 := by
  with_unfolding_all rfl

/-- End-to-end run on the linear signal: one peak spanning the crossing
`1001/2000` to the (synthetic) right boundary 1, with data maximum 1000. -/
theorem detectPeaks_linS_single :
    PeakDetector.detectPeaks linS [0, 1] [0, 1000] (1001/2)
      = [{ begin_ := 1001/2000, end_ := 1, location := 3001/4000,
           maximum := 1000, area := 0, hydrogens := 0 }] := by
  rw [detectPeaks_unfold linS [0, 1] [0, 1000] (1001/2) rfl rfl rfl rfl]
  rw [listMin_pair, listMax_pair, findCrossings_linS]
  with_unfolding_all rfl

/-- End-to-end run showing the C3 discard: the surviving pair
`(1001/2000, 1)` contains the samples at `x = 3/4` and `x = 1`, but their
values 100 and 200 never exceed the baseline `1001/2`, so the pair is
dropped and no peak is reported. -/
theorem detectPeaks_linS_below_empty :
    PeakDetector.detectPeaks linS [0, 3/4, 1] [0, 100, 200] (1001/2) = [] := by
  rw [detectPeaks_unfold linS [0, 3/4, 1] [0, 100, 200] (1001/2) rfl rfl rfl rfl]
  rw [show PeakDetector.listMin [0, 3/4, 1] = 0 from by with_unfolding_all rfl,
    show PeakDetector.listMax [0, 3/4, 1] = 1 from by with_unfolding_all rfl,
    findCrossings_linS]
  with_unfolding_all rfl

/-- End-to-end run on the constant signal above baseline: no interior
crossings, hence (because of the nonempty-guard) no synthetic crossings and
no peaks. -/
theorem detectPeaks_constS_empty :
    PeakDetector.detectPeaks constS [0, 1] [10, 10] 1 = [] := by
  apply detectPeaks_of_no_crossings
  rw [listMin_pair, listMax_pair]
  exact findCrossings_constS

/-! ## C3 — peak maximum and the discard rule -/

/-- Counterexample to C3 as stated: the pair `(1001/2000, 1)` survives the
valley check and contains the filtered sample `x = 3/4`, yet `detectPeaks`
emits no peak, because no in-range sample exceeds the baseline — the claim
says the pair is discarded only when *no sample at all* falls in range. -/
theorem detectPeaks_discards_inrange_below_baseline_cex :
    PeakDetector.detectPeaks linS [0, 3/4, 1] [0, 100, 200] (1001/2) = []
    ∧ PeakDetector.sortCrossings (PeakDetector.adjustCrossings linS (1001/2) 0 1
        (CubicSpline.findCrossings linS (1001/2) 0 1)) = [1001/2000, 1]
    ∧ (1001/2 : ℚ) < CubicSpline.evaluate linS ((1001/2000 + 1) / 2)
    ∧ ((1001/2000 : ℚ) ≤ 3/4 ∧ (3/4 : ℚ) ≤ 1) := by
  refine ⟨detectPeaks_linS_below_empty, ?_, ?_, by norm_num⟩
  · rw [findCrossings_linS]
    with_unfolding_all rfl
  · rw [evaluate_linS]
    norm_num

/-- C3 as amended: a crossing pair is discarded unless some in-range sample
*strictly exceeds the baseline* (merely having samples in range is not
enough); when a peak is emitted, its `maximum` is the largest `y` among the
in-range samples, and it strictly exceeds the baseline. -/
theorem processPair_maximum_spec (s : SplineState) (baseline : ℚ)
    (samples : List (ℚ × ℚ)) (xb xe : ℚ) :
    ((∀ p ∈ samples, p.1 ≥ xb → p.1 ≤ xe → p.2 ≤ baseline) →
      PeakDetector.processPair s baseline samples (xb, xe) = none)
    ∧ (∀ pk : Peak, PeakDetector.processPair s baseline samples (xb, xe) = some pk →
        (∃ p ∈ samples, (p.1 ≥ xb ∧ p.1 ≤ xe) ∧ p.2 = pk.maximum)
        ∧ (∀ p ∈ samples, p.1 ≥ xb → p.1 ≤ xe → p.2 ≤ pk.maximum)
        ∧ baseline < pk.maximum) :=
  processPair_some_aux s baseline samples xb xe

/-- Witness for C3 (amended): with baseline 1, the pair `(0, 2)` is dropped
when its only in-range sample sits at `1/2 ≤ 1`, and emits the peak with
maximum 10 when the sample value is 10. -/
theorem processPair_maximum_spec_witness :
    PeakDetector.processPair linS 1 [(1, 1/2)] (0, 2) = none
    ∧ ((∃ p ∈ [((1 : ℚ), (10 : ℚ))], (p.1 ≥ 0 ∧ p.1 ≤ 2)
          ∧ p.2 = (Peak.mk 0 2 1 10 0 0).maximum)
        ∧ (∀ p ∈ [((1 : ℚ), (10 : ℚ))], p.1 ≥ 0 → p.1 ≤ 2
            → p.2 ≤ (Peak.mk 0 2 1 10 0 0).maximum)
        ∧ (1 : ℚ) < (Peak.mk 0 2 1 10 0 0).maximum) :=
  ⟨(processPair_maximum_spec linS 1 [(1, 1/2)] 0 2).1 (by
      intro p hp h1 h2
      rw [List.mem_singleton] at hp
      rw [hp]
      norm_num),
   (processPair_maximum_spec linS 1 [(1, 10)] 0 2).2 (Peak.mk 0 2 1 10 0 0) (by
      with_unfolding_all rfl)⟩

/-! ## C4 — synthetic boundary crossings need a nonempty interior list -/

/-- Counterexample to C4 as stated: the constant signal sits entirely above
the baseline at both boundaries, the interior search finds no crossings, and
— contrary to the claim that `xMin`/`xMax` are then prepended/appended,
yielding one peak — no synthetic crossing is added and no peak is found. -/
theorem detectPeaks_no_synthetic_when_no_crossings_cex :
    (1 : ℚ) < CubicSpline.evaluate constS 0
    ∧ (1 : ℚ) < CubicSpline.evaluate constS 1
    ∧ CubicSpline.findCrossings constS 1 0 1 = []
    ∧ PeakDetector.adjustCrossings constS 1 0 1
        (CubicSpline.findCrossings constS 1 0 1) = []
    ∧ PeakDetector.detectPeaks constS [0, 1] [10, 10] 1 = [] := by
  refine ⟨?_, ?_, findCrossings_constS, ?_, detectPeaks_constS_empty⟩
  · rw [evaluate_constS]
    norm_num
  · rw [evaluate_constS]
    norm_num
  · rw [findCrossings_constS]
    exact adjustCrossings_nil constS 1 0 1

/-- C4 as amended: `xMin` is prepended (and symmetrically `xMax` appended)
only when the boundary value exceeds the baseline *and the interior search
returned at least one crossing*; when the interior search returns no
crossings, no synthetic crossing is added and `detectPeaks` reports zero
peaks. -/
theorem adjustCrossings_boundary_spec (s : SplineState) (xData yData : List ℚ)
    (baseline xMin xMax : ℚ) (crossings : List ℚ) :
    (CubicSpline.findCrossings s baseline (PeakDetector.listMin xData)
        (PeakDetector.listMax xData) = [] →
      PeakDetector.detectPeaks s xData yData baseline = [])
    ∧ (crossings ≠ [] → CubicSpline.evaluate s xMin > baseline →
        (PeakDetector.adjustCrossings s baseline xMin xMax crossings).head?
          = some xMin)
    ∧ (crossings ≠ [] → CubicSpline.evaluate s xMax > baseline →
        (PeakDetector.adjustCrossings s baseline xMin xMax crossings).getLast?
          = some xMax) := by
  refine ⟨detectPeaks_of_no_crossings s xData yData baseline, ?_, ?_⟩
  · intro hne hgt
    unfold PeakDetector.adjustCrossings
    have hinner : (if CubicSpline.evaluate s xMin > baseline
          ∧ ¬crossings.isEmpty = true
        then xMin :: crossings else crossings) = xMin :: crossings :=
      if_pos ⟨hgt, by simpa using hne⟩
    simp only [hinner]
    by_cases h2 : CubicSpline.evaluate s xMax > baseline
        ∧ ¬(xMin :: crossings).isEmpty = true
    · rw [if_pos h2, List.cons_append, List.head?_cons]
    · rw [if_neg h2, List.head?_cons]
  · intro hne hgt
    unfold PeakDetector.adjustCrossings
    by_cases h1 : CubicSpline.evaluate s xMin > baseline
        ∧ ¬crossings.isEmpty = true
    · have hinner : (if CubicSpline.evaluate s xMin > baseline
            ∧ ¬crossings.isEmpty = true
          then xMin :: crossings else crossings) = xMin :: crossings := if_pos h1
      simp only [hinner]
      rw [if_pos ⟨hgt, by simp⟩]
      exact List.getLast?_concat _
    · have hinner : (if CubicSpline.evaluate s xMin > baseline
            ∧ ¬crossings.isEmpty = true
          then xMin :: crossings else crossings) = crossings := if_neg h1
      simp only [hinner]
      rw [if_pos ⟨hgt, by simpa using hne⟩]
      exact List.getLast?_concat _

/-- Witness for C4 (amended): the no-crossing case on the constant signal,
and both synthetic-crossing cases on the linear signal against baseline −1
with interior crossing list `[1/2]`. -/
theorem adjustCrossings_boundary_spec_witness :
    PeakDetector.detectPeaks constS [0, 1] [10, 10] 1 = []
    ∧ (PeakDetector.adjustCrossings linS (-1) 0 1 [1/2]).head? = some 0
    ∧ (PeakDetector.adjustCrossings linS (-1) 0 1 [1/2]).getLast? = some 1 :=
  ⟨(adjustCrossings_boundary_spec constS [0, 1] [10, 10] 1 0 1 [1/2]).1 (by
      rw [listMin_pair, listMax_pair]
      exact findCrossings_constS),
   (adjustCrossings_boundary_spec linS [0, 1] [0, 1000] (-1) 0 1 [1/2]).2.1
     (by simp) (by rw [evaluate_linS]; norm_num),
   (adjustCrossings_boundary_spec linS [0, 1] [0, 1000] (-1) 0 1 [1/2]).2.2
     (by simp) (by rw [evaluate_linS]; norm_num)⟩

/-! ## C9 — every emitted peak rises strictly above the baseline -/

/-- C9: every `Peak` returned by `detectPeaks` has `maximum` strictly above
the baseline: the scan starts its running maximum *at* the baseline and a
pair is only kept when some sample strictly exceeded it. -/
theorem detectPeaks_maximum_gt_baseline (s : SplineState) (xData yData : List ℚ)
    (baseline : ℚ) (pk : Peak)
    (hpk : pk ∈ PeakDetector.detectPeaks s xData yData baseline) :
    baseline < pk.maximum := by
  simp only [PeakDetector.detectPeaks] at hpk
  split at hpk
  · exact absurd hpk (List.not_mem_nil pk)
  · split at hpk
    · exact absurd hpk (List.not_mem_nil pk)
    · split at hpk
      · exact absurd hpk (List.not_mem_nil pk)
      · obtain ⟨a, _, heq⟩ := List.mem_filterMap.mp hpk
        refine ((processPair_some_aux s baseline (xData.zip yData) a.1 a.2).2 pk ?_).2.2
        rw [Prod.mk.eta]
        exact heq

/-- Witness for C9 on the single peak detected in the linear signal. -/
theorem detectPeaks_maximum_gt_baseline_witness :
    (1001/2 : ℚ) < (Peak.mk (1001/2000) 1 (3001/4000) 1000 0 0).maximum :=
  detectPeaks_maximum_gt_baseline linS [0, 1] [0, 1000] (1001/2)
    (Peak.mk (1001/2000) 1 (3001/4000) 1000 0 0)
    (by rw [detectPeaks_linS_single]; exact List.mem_singleton_self _)

end NMR
